import Mathlib

/-!
Verification of the hand-gesture-game-controller repository against its
natural-language specification.

The repository ships two parts:
* a React landing page (`frontend/src/components`, `src/unnamed/part_*`),
  embedded below from the TypeScript source; and
* a Python real-time pipeline (`camera_capture.py`, `gesture_classification.py`,
  `game_controller.py`, `main.py`) that is documented in the README and the
  specification but whose source files are not present in the snapshot.
  Those components (ActionDebouncer, GestureClassifier, FeatureExtractor and
  the KeyInjector interface) are modelled from the specification text.

Time is modelled with exact rationals (seconds); geometry for the feature
extractor with exact reals.
-/

/-! ## Gesture labels and action states (spec §3 data model) -/

/-- Modelled from the spec: `GestureLabel`: one of
{OpenPalm, ClosedFist, NoHand, Unknown} (spec §3); the source module
`gesture_classification.py` is not in the snapshot. -/
inductive GestureLabel
  | OpenPalm
  | ClosedFist
  | NoHand
  | Unknown
deriving Repr, DecidableEq

/-- Modelled from the spec: `ActionState`: one of {Idle, Accelerating, Braking}
(spec §3); the source module `game_controller.py` is not in the snapshot. -/
inductive ActionState
  | Idle
  | Accelerating
  | Braking
deriving Repr, DecidableEq

/-- Simulated keys sent to the game: Right Arrow accelerates, Left Arrow
brakes (README "Keyboard Controls", spec §8 scenario "press(Right)"). -/
inductive Key
  | Right
  | Left
deriving Repr, DecidableEq

/-- Modelled from the spec: the key associated with an action state — the key
held while that state is current. Idle holds no key; Accelerating holds Right;
Braking holds Left (spec §4.5, README). -/
def keyFor : ActionState → Option Key
  | ActionState.Idle => none
  | ActionState.Accelerating => some Key.Right
  | ActionState.Braking => some Key.Left

/-- Modelled from the spec: the desired ActionState for a per-cycle gesture
label: OpenPalm → Accelerating, ClosedFist → Braking, NoHand/Unknown → Idle;
a missing label (None) also maps to Idle (spec §4.5). -/
def desired : Option GestureLabel → ActionState
  | some GestureLabel.OpenPalm => ActionState.Accelerating
  | some GestureLabel.ClosedFist => ActionState.Braking
  | some GestureLabel.NoHand => ActionState.Idle
  | some GestureLabel.Unknown => ActionState.Idle
  | none => ActionState.Idle

/-- A directive the debouncer emits towards the KeyInjector interface
(`press(key)` / `release(key)`, spec §6). -/
inductive KeyEvent
  | press (k : Key)
  | release (k : Key)
deriving Repr, DecidableEq

/-- Modelled from the spec: `DebounceRecord`: current ActionState and the
timestamp (seconds, exact rational) at which that state was entered
(spec §3); owned by the ActionDebouncer in `game_controller.py`, which is not
in the snapshot. -/
structure DebounceRecord where
  state : ActionState
  state_entered_at : ℚ
deriving Repr, DecidableEq

/-- Configuration of the debouncer: `min_action_duration` (default 0.05 s,
spec §6). -/
structure DebounceCfg where
  min_action_duration : ℚ
deriving Repr, DecidableEq

/-- Modelled from the spec: one evaluation of the ActionDebouncer transition
rule (spec §4.5): if `now - state_entered_at >= min_action_duration` and the
desired state differs from the current state, transition to the desired
state, reset `state_entered_at`, and emit release-then-press directives;
otherwise the record persists unchanged and nothing is emitted. -/
def step (cfg : DebounceCfg) (r : DebounceRecord) (now : ℚ)
    (lbl : Option GestureLabel) : DebounceRecord × List KeyEvent :=
  let d := desired lbl
  if cfg.min_action_duration ≤ now - r.state_entered_at ∧ d ≠ r.state then
    (⟨d, now⟩,
      ((keyFor r.state).toList.map KeyEvent.release)
        ++ ((keyFor d).toList.map KeyEvent.press))
  else
    (r, [])

/-! ### Basic step lemmas -/

/-- If a step changes the state, the transition condition held: the elapsed
time was at least `min_action_duration`, and the new record has the desired
state with `state_entered_at` reset to `now`. -/
theorem step_change (cfg : DebounceCfg) (r : DebounceRecord) (now : ℚ)
    (lbl : Option GestureLabel)
    (h : (step cfg r now lbl).1.state ≠ r.state) :
    cfg.min_action_duration ≤ now - r.state_entered_at ∧
      (step cfg r now lbl).1 = ⟨desired lbl, now⟩ := by
  by_cases hc : cfg.min_action_duration ≤ now - r.state_entered_at ∧
      desired lbl ≠ r.state
  · exact ⟨hc.1, by simp [step, hc]⟩
  · exact absurd (by simp [step, hc] : (step cfg r now lbl).1.state = r.state) h

/-- If a step does not change the state, it changes nothing at all and emits
nothing. -/
theorem step_same (cfg : DebounceCfg) (r : DebounceRecord) (now : ℚ)
    (lbl : Option GestureLabel)
    (h : (step cfg r now lbl).1.state = r.state) :
    step cfg r now lbl = (r, []) := by
  by_cases hc : cfg.min_action_duration ≤ now - r.state_entered_at ∧
      desired lbl ≠ r.state
  · exact absurd h (by simp [step, hc, hc.2])
  · simp [step, hc]

/-! ## Claim C3: the desired-state mapping -/

/-- C3. The function mapping a per-cycle GestureLabel to the ActionDebouncer's
desired ActionState is total and exactly: OpenPalm ↦ Accelerating,
ClosedFist ↦ Braking, NoHand ↦ Idle, Unknown ↦ Idle, and a missing label
(none) ↦ Idle; and the debouncer step is a total function, so no input makes
it raise an error. -/
theorem desired_mapping :
    desired (some GestureLabel.OpenPalm) = ActionState.Accelerating ∧
    desired (some GestureLabel.ClosedFist) = ActionState.Braking ∧
    desired (some GestureLabel.NoHand) = ActionState.Idle ∧
    desired (some GestureLabel.Unknown) = ActionState.Idle ∧
    desired none = ActionState.Idle ∧
    ∀ (cfg : DebounceCfg) (r : DebounceRecord) (now : ℚ)
      (lbl : Option GestureLabel),
      ∃ out : DebounceRecord × List KeyEvent, step cfg r now lbl = out :=
  ⟨rfl, rfl, rfl, rfl, rfl, fun cfg r now lbl => ⟨step cfg r now lbl, rfl⟩⟩

/-! ## Claim C6: frame condition (anti-flicker guarantee) -/

/-- C6. Whenever the transition condition (enough elapsed time AND desired
state different from the current state) does not hold, a debouncer step
leaves the current ActionState, the `state_entered_at` timestamp and
(emitting no directive) the held key unchanged, whatever the incoming label
is. -/
theorem step_frame (cfg : DebounceCfg) (r : DebounceRecord) (now : ℚ)
    (lbl : Option GestureLabel)
    (h : ¬ (cfg.min_action_duration ≤ now - r.state_entered_at ∧
        desired lbl ≠ r.state)) :
    (step cfg r now lbl).1.state = r.state ∧
      (step cfg r now lbl).1.state_entered_at = r.state_entered_at ∧
      (step cfg r now lbl).2 = [] := by
  simp [step, h]

/-- Witness for C6 at a concrete input: at time 0.01 s after entering Idle
with `min_action_duration` 0.05 s, an OpenPalm label changes nothing. -/
theorem step_frame_witness :
    (¬ ((⟨1/20⟩ : DebounceCfg).min_action_duration ≤
        (1/100 : ℚ) - (⟨ActionState.Idle, 0⟩ : DebounceRecord).state_entered_at ∧
        desired (some GestureLabel.OpenPalm) ≠
          (⟨ActionState.Idle, 0⟩ : DebounceRecord).state)) ∧
    ((step ⟨1/20⟩ ⟨ActionState.Idle, 0⟩ (1/100)
        (some GestureLabel.OpenPalm)).1.state = ActionState.Idle ∧
      (step ⟨1/20⟩ ⟨ActionState.Idle, 0⟩ (1/100)
        (some GestureLabel.OpenPalm)).1.state_entered_at = 0 ∧
      (step ⟨1/20⟩ ⟨ActionState.Idle, 0⟩ (1/100)
        (some GestureLabel.OpenPalm)).2 = []) :=
  ⟨by norm_num [desired],
    step_frame ⟨1/20⟩ ⟨ActionState.Idle, 0⟩ (1/100)
      (some GestureLabel.OpenPalm) (by norm_num [desired])⟩

/-! ## Claim C1: the debounce invariant over whole input traces -/

/-- Modelled from the spec: running the debouncer over a trace of
(timestamp, label) cycles and collecting the timestamps at which an
ActionState transition occurred. -/
def transTimes (cfg : DebounceCfg) :
    DebounceRecord → List (ℚ × Option GestureLabel) → List ℚ
  | _, [] => []
  | r, (t, lbl) :: rest =>
    if (step cfg r t lbl).1.state = r.state then
      transTimes cfg ((step cfg r t lbl).1) rest
    else
      t :: transTimes cfg ((step cfg r t lbl).1) rest

/-- Every transition in a trace happens at least `min_action_duration` after
the entry time of the record the trace started from. -/
theorem transTimes_mem (cfg : DebounceCfg)
    (hdur : 0 ≤ cfg.min_action_duration) :
    ∀ (ins : List (ℚ × Option GestureLabel)) (r : DebounceRecord),
      ∀ t ∈ transTimes cfg r ins,
        cfg.min_action_duration ≤ t - r.state_entered_at := by
  intro ins
  induction ins with
  | nil => intro r t ht; simp [transTimes] at ht
  | cons p rest ih =>
    intro r t ht
    obtain ⟨t0, lbl⟩ := p
    by_cases hs : (step cfg r t0 lbl).1.state = r.state
    · rw [transTimes, if_pos hs] at ht
      have hr : (step cfg r t0 lbl).1 = r := by
        rw [step_same cfg r t0 lbl hs]
      rw [hr] at ht
      exact ih r t ht
    · rw [transTimes, if_neg hs] at ht
      obtain ⟨helapsed, hrec⟩ := step_change cfg r t0 lbl hs
      rcases List.mem_cons.mp ht with h0 | hmem
      · rw [h0]; exact helapsed
      · rw [hrec] at hmem
        have htail := ih ⟨desired lbl, t0⟩ t hmem
        simp only at htail
        linarith

/-- C1. For every sequence of GestureLabel inputs fed to the ActionDebouncer,
no two ActionState transitions occur less than `min_action_duration` apart
(the transition times of any trace are pairwise at least
`min_action_duration` apart), and a transition from the current state is
permitted only when the elapsed time since the current state was entered is
at least `min_action_duration`. -/
theorem debounce_invariant (cfg : DebounceCfg)
    (hdur : 0 ≤ cfg.min_action_duration) :
    (∀ (r : DebounceRecord) (now : ℚ) (lbl : Option GestureLabel),
      (step cfg r now lbl).1.state ≠ r.state →
        cfg.min_action_duration ≤ now - r.state_entered_at) ∧
    (∀ (r : DebounceRecord) (ins : List (ℚ × Option GestureLabel)),
      List.Pairwise (fun a b => cfg.min_action_duration ≤ b - a)
        (transTimes cfg r ins)) := by
  constructor
  · intro r now lbl h
    exact (step_change cfg r now lbl h).1
  · intro r ins
    induction ins generalizing r with
    | nil => simp [transTimes]
    | cons p rest ih =>
      obtain ⟨t0, lbl⟩ := p
      by_cases hs : (step cfg r t0 lbl).1.state = r.state
      · rw [transTimes, if_pos hs]
        exact ih ((step cfg r t0 lbl).1)
      · rw [transTimes, if_neg hs]
        obtain ⟨helapsed, hrec⟩ := step_change cfg r t0 lbl hs
        refine List.pairwise_cons.mpr ⟨?_, ih ((step cfg r t0 lbl).1)⟩
        intro t ht
        rw [hrec] at ht
        have := transTimes_mem cfg hdur rest ⟨desired lbl, t0⟩ t ht
        simpa using this

/-- Witness for C1: with `min_action_duration` = 0.05 s, a trace alternating
OpenPalm and ClosedFist every 0.01 s from Idle has pairwise-separated
transition times. -/
theorem debounce_invariant_witness :
    List.Pairwise
      (fun a b => (⟨1/20⟩ : DebounceCfg).min_action_duration ≤ b - a)
      (transTimes ⟨1/20⟩ ⟨ActionState.Idle, 0⟩
        [(1/100, some GestureLabel.OpenPalm),
         (2/100, some GestureLabel.ClosedFist),
         (3/100, some GestureLabel.OpenPalm),
         (4/100, some GestureLabel.ClosedFist),
         (5/100, some GestureLabel.OpenPalm),
         (6/100, some GestureLabel.ClosedFist)]) :=
  (debounce_invariant ⟨1/20⟩ (by norm_num)).2 ⟨ActionState.Idle, 0⟩ _


/-! ## The debouncer/KeyInjector pair (claims C2 and C5) -/

/-- Modelled from the spec: the KeyInjector interface holds simulated keys;
`press(key)` adds a key, `release(key)` removes it (spec §6). The injector
module `game_controller.py` is not in the snapshot. -/
def applyEvent (held : List Key) : KeyEvent → List Key
  | KeyEvent.press k => held ++ [k]
  | KeyEvent.release k => held.erase k

/-- Apply a list of KeyInjector directives in order. -/
def applyEvents (held : List Key) (evs : List KeyEvent) : List Key :=
  evs.foldl applyEvent held

/-- Modelled from the spec: the joint state of the ActionDebouncer (record and
pause flag) and the KeyInjector (set of held keys), carried across cycles. -/
structure Controller where
  record : DebounceRecord
  paused : Bool
  held : List Key
deriving Repr, DecidableEq

/-- Modelled from the spec: one per-cycle evaluation of the pair: while
paused no label is evaluated and no transition occurs; otherwise the
debouncer steps and its directives are applied to the injector (spec §4.5). -/
def ctrlInput (cfg : DebounceCfg) (s : Controller) (now : ℚ)
    (lbl : Option GestureLabel) : Controller :=
  if s.paused then s
  else
    ⟨(step cfg s.record now lbl).1, false,
      applyEvents s.held (step cfg s.record now lbl).2⟩

/-- Modelled from the spec: pausing first releases any currently held key and
forces the record to Idle (spec §4.5 pause semantics). -/
def ctrlPause (s : Controller) : Controller :=
  if s.paused then s
  else
    ⟨⟨ActionState.Idle, s.record.state_entered_at⟩, true,
      applyEvents s.held ((keyFor s.record.state).toList.map KeyEvent.release)⟩

/-- Modelled from the spec: on resume, evaluation restarts from the (Idle)
record with a fresh `state_entered_at` (spec §4.5 pause semantics). -/
def ctrlResume (s : Controller) (now : ℚ) : Controller :=
  if s.paused then ⟨⟨s.record.state, now⟩, false, s.held⟩ else s

/-- The states of the pair reachable from the initial Idle/unpaused/no-key
state through per-cycle inputs, pauses and resumes. -/
inductive Reachable (cfg : DebounceCfg) : Controller → Prop
  | init (t0 : ℚ) : Reachable cfg ⟨⟨ActionState.Idle, t0⟩, false, []⟩
  | input {s : Controller} (now : ℚ) (lbl : Option GestureLabel) :
      Reachable cfg s → Reachable cfg (ctrlInput cfg s now lbl)
  | pause {s : Controller} :
      Reachable cfg s → Reachable cfg (ctrlPause s)
  | resume {s : Controller} (now : ℚ) :
      Reachable cfg s → Reachable cfg (ctrlResume s now)

/-- Applying release-of-outgoing then press-of-incoming directives to the
keys held for the outgoing state yields exactly the keys for the incoming
state. -/
theorem applyEvents_trans (a b : ActionState) :
    applyEvents (keyFor a).toList
        (((keyFor a).toList.map KeyEvent.release)
          ++ ((keyFor b).toList.map KeyEvent.press)) = (keyFor b).toList := by
  cases a <;> cases b <;> rfl

/-- State invariant of the reachable pair: the injector holds exactly the
keys of the debouncer's current state, and a paused pair is in Idle. -/
theorem reachable_inv {cfg : DebounceCfg} {s : Controller}
    (h : Reachable cfg s) :
    s.held = (keyFor s.record.state).toList ∧
      (s.paused = true → s.record.state = ActionState.Idle) := by
  induction h with
  | init t0 => exact ⟨rfl, fun _ => rfl⟩
  | input now lbl hs ih =>
    rename_i s
    by_cases hp : s.paused
    · simpa [ctrlInput, hp] using ih
    · by_cases hc : (step cfg s.record now lbl).1.state = s.record.state
      · have hstep := step_same cfg s.record now lbl hc
        refine ⟨?_, by simp [ctrlInput, hp]⟩
        simp [ctrlInput, hp, hstep, applyEvents, ih.1]
      · obtain ⟨_, hrec⟩ := step_change cfg s.record now lbl hc
        have hout : (step cfg s.record now lbl).2 =
            ((keyFor s.record.state).toList.map KeyEvent.release)
              ++ ((keyFor (desired lbl)).toList.map KeyEvent.press) := by
          by_cases hcond : cfg.min_action_duration ≤
              now - s.record.state_entered_at ∧ desired lbl ≠ s.record.state
          · simp [step, hcond]
          · exact absurd (by simp [step, hcond] :
              (step cfg s.record now lbl).1.state = s.record.state) hc
        refine ⟨?_, by simp [ctrlInput, hp]⟩
        simp only [ctrlInput, hp, if_neg, Bool.false_eq_true, ite_false]
        rw [hout, ih.1, applyEvents_trans, hrec]
  | pause hs ih =>
    rename_i s
    by_cases hp : s.paused
    · simpa [ctrlPause, hp] using ih
    · constructor
      · simp only [ctrlPause, hp, Bool.false_eq_true, ite_false]
        rw [ih.1]
        cases s.record.state <;> rfl
      · intro _
        simp [ctrlPause, hp]
  | resume now hs ih =>
    rename_i s
    by_cases hp : s.paused
    · have hidle := ih.2 hp
      refine ⟨?_, ?_⟩
      · simp [ctrlResume, hp, ih.1]
      · intro hcontra
        simp [ctrlResume, hp] at hcontra
    · simpa [ctrlResume, hp] using ih

/-- C2. In every reachable state of the ActionDebouncer/KeyInjector pair,
at most one simulated key is held; Idle holds no key, and each of
Accelerating and Braking holds exactly one key. -/
theorem at_most_one_key (cfg : DebounceCfg) (s : Controller)
    (h : Reachable cfg s) :
    s.held.length ≤ 1 ∧
      (s.record.state = ActionState.Idle → s.held = []) ∧
      (s.record.state = ActionState.Accelerating → s.held.length = 1) ∧
      (s.record.state = ActionState.Braking → s.held.length = 1) := by
  have hinv := (reachable_inv h).1
  rw [hinv]
  cases hst : s.record.state <;> simp [keyFor]

/-- Witness for C2 at a concrete reachable state: one OpenPalm cycle at
time 1 s from the initial state reaches Accelerating holding one key. -/
theorem at_most_one_key_witness :
    (ctrlInput ⟨1/20⟩ ⟨⟨ActionState.Idle, 0⟩, false, []⟩ 1
        (some GestureLabel.OpenPalm)).held.length ≤ 1 ∧
      ((ctrlInput ⟨1/20⟩ ⟨⟨ActionState.Idle, 0⟩, false, []⟩ 1
          (some GestureLabel.OpenPalm)).record.state = ActionState.Idle →
        (ctrlInput ⟨1/20⟩ ⟨⟨ActionState.Idle, 0⟩, false, []⟩ 1
          (some GestureLabel.OpenPalm)).held = []) ∧
      ((ctrlInput ⟨1/20⟩ ⟨⟨ActionState.Idle, 0⟩, false, []⟩ 1
          (some GestureLabel.OpenPalm)).record.state =
            ActionState.Accelerating →
        (ctrlInput ⟨1/20⟩ ⟨⟨ActionState.Idle, 0⟩, false, []⟩ 1
          (some GestureLabel.OpenPalm)).held.length = 1) ∧
      ((ctrlInput ⟨1/20⟩ ⟨⟨ActionState.Idle, 0⟩, false, []⟩ 1
          (some GestureLabel.OpenPalm)).record.state = ActionState.Braking →
        (ctrlInput ⟨1/20⟩ ⟨⟨ActionState.Idle, 0⟩, false, []⟩ 1
          (some GestureLabel.OpenPalm)).held.length = 1) :=
  at_most_one_key ⟨1/20⟩ _
    (Reachable.input 1 (some GestureLabel.OpenPalm) (Reachable.init 0))

/-- C5. From any reachable state: pausing releases any held key, forces the
record to Idle and marks the pair paused; while paused no input label causes
any change; a resume at time `now` restarts from Idle with
`state_entered_at = now`; and the first post-resume transition still waits
at least `min_action_duration` after `now`. -/
theorem pause_resume (cfg : DebounceCfg) (s : Controller)
    (h : Reachable cfg s) :
    ((ctrlPause s).record.state = ActionState.Idle ∧
      (ctrlPause s).held = [] ∧ (ctrlPause s).paused = true) ∧
    (∀ (now : ℚ) (lbl : Option GestureLabel),
      s.paused = true → ctrlInput cfg s now lbl = s) ∧
    (∀ now : ℚ, s.paused = true →
      (ctrlResume s now).record.state = ActionState.Idle ∧
        (ctrlResume s now).record.state_entered_at = now) ∧
    (∀ (now t : ℚ) (lbl : Option GestureLabel), s.paused = true →
      (step cfg (ctrlResume s now).record t lbl).1.state ≠
          (ctrlResume s now).record.state →
        cfg.min_action_duration ≤ t - now) := by
  obtain ⟨hheld, hpidle⟩ := reachable_inv h
  refine ⟨?_, ?_, ?_, ?_⟩
  · by_cases hp : s.paused
    · have hidle := hpidle hp
      refine ⟨?_, ?_, ?_⟩ <;> simp [ctrlPause, hp, hidle, hheld, keyFor]
    · refine ⟨?_, ?_, ?_⟩
      · simp [ctrlPause, hp]
      · simp only [ctrlPause, hp, Bool.false_eq_true, ite_false]
        rw [hheld]; cases s.record.state <;> rfl
      · simp [ctrlPause, hp]
  · intro now lbl hp
    simp [ctrlInput, hp]
  · intro now hp
    exact ⟨by simp [ctrlResume, hp, hpidle hp], by simp [ctrlResume, hp]⟩
  · intro now t lbl hp hchange
    have := (step_change cfg (ctrlResume s now).record t lbl hchange).1
    have hat : (ctrlResume s now).record.state_entered_at = now := by
      simp [ctrlResume, hp]
    rw [hat] at this
    exact this

/-- Witness for C5 at a concrete reachable paused state (pause applied to the
initial state), with the quantified parts instantiated at time 1 s and an
OpenPalm label. -/
theorem pause_resume_witness :
    ((ctrlPause (ctrlPause ⟨⟨ActionState.Idle, 0⟩, false, []⟩)).record.state =
        ActionState.Idle ∧
      (ctrlPause (ctrlPause ⟨⟨ActionState.Idle, 0⟩, false, []⟩)).held = [] ∧
      (ctrlPause (ctrlPause ⟨⟨ActionState.Idle, 0⟩, false, []⟩)).paused =
        true) ∧
    ctrlInput ⟨1/20⟩ (ctrlPause ⟨⟨ActionState.Idle, 0⟩, false, []⟩) 1
        (some GestureLabel.OpenPalm) =
      ctrlPause ⟨⟨ActionState.Idle, 0⟩, false, []⟩ ∧
    ((ctrlResume (ctrlPause ⟨⟨ActionState.Idle, 0⟩, false, []⟩) 1).record.state =
        ActionState.Idle ∧
      (ctrlResume (ctrlPause ⟨⟨ActionState.Idle, 0⟩, false, []⟩)
          1).record.state_entered_at = 1) ∧
    ((step ⟨1/20⟩
          (ctrlResume (ctrlPause ⟨⟨ActionState.Idle, 0⟩, false, []⟩) 1).record
          (101/100) (some GestureLabel.OpenPalm)).1.state ≠
        (ctrlResume (ctrlPause ⟨⟨ActionState.Idle, 0⟩, false, []⟩)
          1).record.state →
      (⟨1/20⟩ : DebounceCfg).min_action_duration ≤ (101/100 : ℚ) - 1) := by
  have h := pause_resume ⟨1/20⟩
    (ctrlPause ⟨⟨ActionState.Idle, 0⟩, false, []⟩)
    (Reachable.pause (Reachable.init 0))
  exact ⟨h.1, h.2.1 1 (some GestureLabel.OpenPalm) rfl,
    h.2.2.1 1 rfl, h.2.2.2 1 (101/100) (some GestureLabel.OpenPalm) rfl⟩

/-! ## GestureClassifier (claim C4) -/

/-- Modelled from the spec: `FeatureVector`: palm-center coordinate, five
fingertip-to-palm-center normalized distances, their mean and population
variance, and the bounding-box aspect quotient (spec §3); the classifier
module `gesture_classification.py` is not in the snapshot. Values are exact
rationals. -/
structure FeatureVector where
  palmX : ℚ
  palmY : ℚ
  dists : List ℚ
  mean : ℚ
  variance : ℚ
  aspect : ℚ
deriving Repr, DecidableEq

/-- Thresholds of the rule-based strategy: open-palm mean threshold,
closed-fist mean threshold, variance consistency threshold (spec §4.4). -/
structure RuleCfg where
  openThresh : ℚ
  closeThresh : ℚ
  varThresh : ℚ
deriving Repr, DecidableEq

/-- Clamp a rational to the interval [0, 1]. -/
def clamp01 (x : ℚ) : ℚ := min 1 (max 0 x)

/-- Modelled from the spec: confidence of the rule-based strategy — the
margin between the observed mean distance and the nearer of the two mean
thresholds, normalized by the threshold span and clamped to [0,1]
(spec §4.4). -/
def ruleConfidence (cfg : RuleCfg) (m : ℚ) : ℚ :=
  clamp01 (min |m - cfg.openThresh| |m - cfg.closeThresh| /
    (cfg.openThresh - cfg.closeThresh))

/-- Modelled from the spec: the rule-based strategy — open palm when the
mean fingertip distance exceeds the upper threshold and the variance is
below the consistency threshold; closed fist when the mean falls below the
lower threshold; otherwise Unknown (spec §4.4). -/
def ruleClassify (cfg : RuleCfg) (f : FeatureVector) : GestureLabel × ℚ :=
  if cfg.openThresh < f.mean ∧ f.variance < cfg.varThresh then
    (GestureLabel.OpenPalm, ruleConfidence cfg f.mean)
  else if f.mean < cfg.closeThresh then
    (GestureLabel.ClosedFist, ruleConfidence cfg f.mean)
  else
    (GestureLabel.Unknown, ruleConfidence cfg f.mean)

/-- Modelled from the spec: the two interchangeable classifier strategies —
rule-based, or model-based delegating to an externally trained scorer
(spec §4.4). -/
inductive Classifier
  | ruleBased (cfg : RuleCfg)
  | modelBased (scorer : FeatureVector → GestureLabel × ℚ)

/-- The raw (label, confidence) output of a strategy, before gating. -/
def rawClassify : Classifier → FeatureVector → GestureLabel × ℚ
  | Classifier.ruleBased cfg, f => ruleClassify cfg f
  | Classifier.modelBased scorer, f => scorer f

/-- Modelled from the spec: the shared post-hoc rule — any output with
confidence below the externally configured threshold is downgraded to
Unknown before being returned to the caller (spec §4.4). -/
def applyThreshold (threshold : ℚ) (out : GestureLabel × ℚ) :
    GestureLabel × ℚ :=
  if out.2 < threshold then (GestureLabel.Unknown, out.2) else out

/-- The GestureClassifier: strategy output followed by confidence gating. -/
def classify (c : Classifier) (threshold : ℚ) (f : FeatureVector) :
    GestureLabel × ℚ :=
  applyThreshold threshold (rawClassify c f)

/-- C4. For every raw (label, confidence) output of either classifier
strategy, if the confidence is below the configured threshold then the
GestureClassifier returns Unknown, regardless of the raw label. -/
theorem confidence_gating (c : Classifier) (threshold : ℚ)
    (f : FeatureVector) (h : (rawClassify c f).2 < threshold) :
    (classify c threshold f).1 = GestureLabel.Unknown := by
  simp [classify, applyThreshold, h]

/-- Witness for C4: the rule-based strategy with thresholds
open = 0.7 / close = 0.3 / var = 0.05 on a feature vector of mean 0.5 yields
confidence 0.5 < 0.6, and the gated classifier output is Unknown. -/
theorem confidence_gating_witness :
    (rawClassify (Classifier.ruleBased ⟨7/10, 3/10, 1/20⟩)
        ⟨0, 0, [], 1/2, 1/100, 1⟩).2 < (3/5 : ℚ) ∧
      (classify (Classifier.ruleBased ⟨7/10, 3/10, 1/20⟩) (3/5)
        ⟨0, 0, [], 1/2, 1/100, 1⟩).1 = GestureLabel.Unknown := by
  have hconf : (rawClassify (Classifier.ruleBased ⟨7/10, 3/10, 1/20⟩)
      ⟨0, 0, [], 1/2, 1/100, 1⟩).2 < (3/5 : ℚ) := by
    norm_num [rawClassify, ruleClassify, ruleConfidence, clamp01, abs]
  exact ⟨hconf,
    confidence_gating (Classifier.ruleBased ⟨7/10, 3/10, 1/20⟩) (3/5)
      ⟨0, 0, [], 1/2, 1/100, 1⟩ hconf⟩

/-! ## FeatureExtractor geometry (claim C7) -/

/-- A 2D landmark point with exact real coordinates. -/
structure Pt where
  x : ℝ
  y : ℝ

/-- Scale a point by a factor about the origin. -/
def ptScale (c : ℝ) (p : Pt) : Pt := ⟨c * p.x, c * p.y⟩

/-- Euclidean distance between two points. -/
noncomputable def ptDist (p q : Pt) : ℝ :=
  Real.sqrt ((p.x - q.x) ^ 2 + (p.y - q.y) ^ 2)

/-- Modelled from the spec: `LandmarkSet`: an ordered sequence of 21
normalized landmark points (spec §3); the module `hand_detection.py` is not
in the snapshot. -/
def LandmarkSet : Type := Fin 21 → Pt

/-- Scale every landmark of a set by a factor. -/
def lmScale (c : ℝ) (L : LandmarkSet) : LandmarkSet := fun i => ptScale c (L i)

/-- Indices of the wrist and the four metacarpal-base landmarks, whose
centroid is the palm center (spec §4.3, README landmark table). -/
def palmIdx : List (Fin 21) := [0, 5, 9, 13, 17]

/-- Indices of the five fingertip landmarks (README landmark table). -/
def tipIdx : List (Fin 21) := [4, 8, 12, 16, 20]

/-- Modelled from the spec: palm center = centroid of the wrist and
metacarpal-base landmarks (spec §4.3). -/
noncomputable def palmCenter (L : LandmarkSet) : Pt :=
  ⟨(palmIdx.map fun i => (L i).x).sum / 5,
    (palmIdx.map fun i => (L i).y).sum / 5⟩

/-- The landmark x-coordinates, in index order. -/
def xsOf (L : LandmarkSet) : List ℝ :=
  (List.finRange 21).map fun i => (L i).x

/-- The landmark y-coordinates, in index order. -/
def ysOf (L : LandmarkSet) : List ℝ :=
  (List.finRange 21).map fun i => (L i).y

/-- Minimum of a list of reals (0 on the empty list; landmark coordinate
lists are never empty). -/
def minOf : List ℝ → ℝ
  | [] => 0
  | a :: l => l.foldr min a

/-- Maximum of a list of reals (0 on the empty list). -/
def maxOf : List ℝ → ℝ
  | [] => 0
  | a :: l => l.foldr max a

/-- Width of the hand's bounding box. -/
noncomputable def widthOf (L : LandmarkSet) : ℝ :=
  maxOf (xsOf L) - minOf (xsOf L)

/-- Height of the hand's bounding box. -/
noncomputable def heightOf (L : LandmarkSet) : ℝ :=
  maxOf (ysOf L) - minOf (ysOf L)

/-- Diagonal of the hand's bounding box. -/
noncomputable def diagOf (L : LandmarkSet) : ℝ :=
  Real.sqrt (widthOf L ^ 2 + heightOf L ^ 2)

/-- Modelled from the spec: the five fingertip-to-palm-center distances,
each normalized by the diagonal of the hand's bounding box (spec §4.3);
`gesture_classification.py` is not in the snapshot. -/
noncomputable def normDists (L : LandmarkSet) : List ℝ :=
  tipIdx.map fun i => ptDist (L i) (palmCenter L) / diagOf L

/-! ### Scaling lemmas -/

/-- Multiplication by a nonnegative factor distributes over binary `min`. -/
theorem mul_min_eq (c a b : ℝ) (hc : 0 ≤ c) :
    c * min a b = min (c * a) (c * b) := by
  have hm : Monotone fun x : ℝ => c * x :=
    fun x y h => mul_le_mul_of_nonneg_left h hc
  exact hm.map_min

/-- Multiplication by a nonnegative factor distributes over binary `max`. -/
theorem mul_max_eq (c a b : ℝ) (hc : 0 ≤ c) :
    c * max a b = max (c * a) (c * b) := by
  have hm : Monotone fun x : ℝ => c * x :=
    fun x y h => mul_le_mul_of_nonneg_left h hc
  exact hm.map_max

/-- `minOf` commutes with scaling by a nonnegative factor. -/
theorem minOf_map (c : ℝ) (hc : 0 ≤ c) :
    ∀ l : List ℝ, minOf (l.map fun x => c * x) = c * minOf l := by
  have haux : ∀ (l : List ℝ) (a : ℝ),
      (l.map fun x => c * x).foldr min (c * a) = c * l.foldr min a := by
    intro l
    induction l with
    | nil => intro a; rfl
    | cons x l ih =>
      intro a
      simp only [List.map_cons, List.foldr_cons, ih a]
      rw [mul_min_eq c x (l.foldr min a) hc]
  intro l
  cases l with
  | nil => simp [minOf]
  | cons a l => simp only [List.map_cons, minOf, haux l a]

/-- `maxOf` commutes with scaling by a nonnegative factor. -/
theorem maxOf_map (c : ℝ) (hc : 0 ≤ c) :
    ∀ l : List ℝ, maxOf (l.map fun x => c * x) = c * maxOf l := by
  have haux : ∀ (l : List ℝ) (a : ℝ),
      (l.map fun x => c * x).foldr max (c * a) = c * l.foldr max a := by
    intro l
    induction l with
    | nil => intro a; rfl
    | cons x l ih =>
      intro a
      simp only [List.map_cons, List.foldr_cons, ih a]
      rw [mul_max_eq c x (l.foldr max a) hc]
  intro l
  cases l with
  | nil => simp [maxOf]
  | cons a l => simp only [List.map_cons, maxOf, haux l a]

/-- The x-coordinates of a scaled landmark set are the scaled
x-coordinates. -/
theorem xsOf_scale (c : ℝ) (L : LandmarkSet) :
    xsOf (lmScale c L) = (xsOf L).map fun x => c * x := by
  simp [xsOf, lmScale, ptScale, List.map_map, Function.comp]

/-- The y-coordinates of a scaled landmark set are the scaled
y-coordinates. -/
theorem ysOf_scale (c : ℝ) (L : LandmarkSet) :
    ysOf (lmScale c L) = (ysOf L).map fun x => c * x := by
  simp [ysOf, lmScale, ptScale, List.map_map, Function.comp]

/-- The bounding-box diagonal scales linearly with the landmark set. -/
theorem diagOf_scale (c : ℝ) (hc : 0 ≤ c) (L : LandmarkSet) :
    diagOf (lmScale c L) = c * diagOf L := by
  have hw : widthOf (lmScale c L) = c * widthOf L := by
    rw [widthOf, xsOf_scale, minOf_map c hc, maxOf_map c hc, widthOf]
    ring
  have hh : heightOf (lmScale c L) = c * heightOf L := by
    rw [heightOf, ysOf_scale, minOf_map c hc, maxOf_map c hc, heightOf]
    ring
  rw [diagOf, hw, hh, diagOf]
  have : (c * widthOf L) ^ 2 + (c * heightOf L) ^ 2 =
      c ^ 2 * (widthOf L ^ 2 + heightOf L ^ 2) := by ring
  rw [this, Real.sqrt_mul (sq_nonneg c), Real.sqrt_sq hc]

/-- Euclidean distance scales linearly with the points. -/
theorem ptDist_scale (c : ℝ) (hc : 0 ≤ c) (p q : Pt) :
    ptDist (ptScale c p) (ptScale c q) = c * ptDist p q := by
  rw [ptDist, ptScale, ptScale, ptDist]
  have : (c * p.x - c * q.x) ^ 2 + (c * p.y - c * q.y) ^ 2 =
      c ^ 2 * ((p.x - q.x) ^ 2 + (p.y - q.y) ^ 2) := by ring
  rw [this, Real.sqrt_mul (sq_nonneg c), Real.sqrt_sq hc]

/-- The palm center of a scaled landmark set is the scaled palm center. -/
theorem palmCenter_scale (c : ℝ) (L : LandmarkSet) :
    palmCenter (lmScale c L) = ptScale c (palmCenter L) := by
  simp only [palmCenter, palmIdx, lmScale, ptScale, List.map_cons,
    List.map_nil, List.sum_cons, List.sum_nil, Pt.mk.injEq]
  constructor <;> ring

/-- C7. For every landmark set and every positive scale factor, the five
normalized fingertip-to-palm-center distances produced by the
FeatureExtractor on the scaled landmark set equal (over exact arithmetic)
those produced on the unscaled set, because each distance is normalized by
the bounding-box diagonal. -/
theorem scale_invariance (c : ℝ) (hc : 0 < c) (L : LandmarkSet) :
    normDists (lmScale c L) = normDists L := by
  unfold normDists
  refine List.map_congr_left fun i _ => ?_
  show ptDist (lmScale c L i) (palmCenter (lmScale c L)) / diagOf (lmScale c L)
      = ptDist (L i) (palmCenter L) / diagOf L
  rw [palmCenter_scale c L, diagOf_scale c hc.le L]
  show ptDist (ptScale c (L i)) (ptScale c (palmCenter L)) / (c * diagOf L)
      = ptDist (L i) (palmCenter L) / diagOf L
  rw [ptDist_scale c hc.le, mul_div_mul_left _ _ (ne_of_gt hc)]

/-- A concrete landmark set used to witness C7: landmark `i` sits at
`(i, i²)`. -/
noncomputable def demoLandmarks : LandmarkSet :=
  fun i => ⟨(i : ℕ), ((i : ℕ) : ℝ) ^ 2⟩

/-- Witness for C7: doubling the demo landmark set leaves its normalized
fingertip distances unchanged. -/
theorem scale_invariance_witness :
    normDists (lmScale 2 demoLandmarks) = normDists demoLandmarks :=
  scale_invariance 2 two_pos demoLandmarks

/-! ## Landing-page navigation (claims C8, C9, C10)

Embedded from the TypeScript source: `src/unnamed/part_002` (the Header
component and its `scrollTo` helper), `src/unnamed/part_000` (the Index
page) and the section components under `frontend/src/components`. -/

/-- A DOM lookup: the document is the list of ids of the rendered sections,
and `getElementById` finds an element with the given id, or none. -/
def getElementById (doc : List String) (targetId : String) : Option String :=
  doc.find? fun s => s = targetId

/-- The observable effect of `el.scrollIntoView({ behavior: "smooth" })`. -/
inductive ScrollCommand
  | intoView (target : String)
deriving Repr, DecidableEq

/-- From `src/unnamed/part_002` lines 5–7:
`const scrollTo = (id) => { document.getElementById(id)?.scrollIntoView(...) }`
— the optional chaining makes the missing-element branch a no-op. -/
def scrollTo (doc : List String) (targetId : String) : Option ScrollCommand :=
  (getElementById doc targetId).map ScrollCommand.intoView

/-- From `src/unnamed/part_002` lines 9–15: the Header's `navLinks` array of
(id, label) pairs. -/
def navLinks : List (String × String) :=
  [("features", "Features"),
   ("how-it-works", "How It Works"),
   ("gestures", "Gestures"),
   ("tech-stack", "Tech Stack"),
   ("download", "Download")]

/-- Every id the Header can pass to `scrollTo`: the nav link targets plus
the `"download"` target of the desktop and mobile Download buttons. -/
def headerTargetIds : List String :=
  navLinks.map Prod.fst ++ ["download"]

/-- From `src/unnamed/part_000` (the Index page) and the section components:
the ids of the sections the page renders, in render order. HeroSection and
SystemRequirementsSection render without an id; FeaturesSection has
`id="features"`, HowItWorksSection `id="how-it-works"`,
GestureControlsSection `id="gestures"` (GestureControlsSection.tsx line 32),
TechStackSection `id="tech-stack"`, DownloadSection `id="download"`
(DownloadSection.tsx line 5). -/
def indexSectionIds : List String :=
  ["features", "how-it-works", "gestures", "tech-stack", "download"]

/-- The clicks the Header component handles (part_002 lines 17–82). -/
inductive HeaderEvent
  | hamburger
  | desktopNav (targetId : String)
  | desktopDownload
  | mobileNav (targetId : String)
  | mobileDownload
deriving Repr, DecidableEq

/-- From `src/unnamed/part_002`: the Header's state is `mobileOpen`; each
click handler yields the next `mobileOpen` and the scroll effect performed:
the hamburger toggles `mobileOpen`; desktop nav/Download scroll without
touching it; the mobile menu's nav and Download buttons scroll and then
`setMobileOpen(false)`. -/
def headerStep (doc : List String) (mobileOpen : Bool) :
    HeaderEvent → Bool × Option ScrollCommand
  | HeaderEvent.hamburger => (!mobileOpen, none)
  | HeaderEvent.desktopNav targetId => (mobileOpen, scrollTo doc targetId)
  | HeaderEvent.desktopDownload => (mobileOpen, scrollTo doc "download")
  | HeaderEvent.mobileNav targetId => (false, scrollTo doc targetId)
  | HeaderEvent.mobileDownload => (false, scrollTo doc "download")

/-- C8. The in-page navigation helper `scrollTo` is total: when no element
with the requested id exists it performs no action and raises no error, and
this covers the scrolls issued by every Header button, desktop and mobile
alike. -/
theorem scrollTo_safe (doc : List String) (targetId : String)
    (h : getElementById doc targetId = none) :
    scrollTo doc targetId = none ∧
      (∀ b : Bool, (headerStep doc b (HeaderEvent.desktopNav targetId)).2 =
        none) ∧
      (∀ b : Bool, (headerStep doc b (HeaderEvent.mobileNav targetId)).2 =
        none) := by
  refine ⟨?_, ?_, ?_⟩ <;> simp [scrollTo, headerStep, h]

/-- Witness for C8: on the index page's document no element has id
`"missing"`, and scrolling to it is a no-op from every Header button. -/
theorem scrollTo_safe_witness :
    scrollTo indexSectionIds "missing" = none ∧
      (∀ b : Bool,
        (headerStep indexSectionIds b
          (HeaderEvent.desktopNav "missing")).2 = none) ∧
      (∀ b : Bool,
        (headerStep indexSectionIds b
          (HeaderEvent.mobileNav "missing")).2 = none) :=
  scrollTo_safe indexSectionIds "missing" (by decide)

/-- C9. Every section id targeted by the Header's navigation links and
Download buttons is the id of a section rendered by the Index page, so every
navigation click finds its element and scrolls to an existing section. -/
theorem nav_targets_rendered (targetId : String)
    (h : targetId ∈ headerTargetIds) :
    targetId ∈ indexSectionIds ∧
      (scrollTo indexSectionIds targetId).isSome = true := by
  fin_cases h <;> exact ⟨by decide, by decide⟩

/-- Witness for C9 at the `"gestures"` nav link. -/
theorem nav_targets_rendered_witness :
    "gestures" ∈ indexSectionIds ∧
      (scrollTo indexSectionIds "gestures").isSome = true :=
  nav_targets_rendered "gestures" (by decide)

/-- C10. Clicking any navigation link or the Download button inside the open
mobile menu leaves `mobileOpen` false, and the hamburger button negates
`mobileOpen`, so two consecutive hamburger clicks restore the original menu
state. -/
theorem mobile_menu_behavior (doc : List String) (targetId : String)
    (b : Bool) :
    (headerStep doc true (HeaderEvent.mobileNav targetId)).1 = false ∧
      (headerStep doc true HeaderEvent.mobileDownload).1 = false ∧
      (headerStep doc b HeaderEvent.hamburger).1 = !b ∧
      (headerStep doc (headerStep doc b HeaderEvent.hamburger).1
        HeaderEvent.hamburger).1 = b := by
  refine ⟨rfl, rfl, rfl, ?_⟩
  simp [headerStep]
